import Mathlib

/-!
Verification of the HabitVoiceAgent repository.

The frontend (`src/frontend/app/page.tsx`, `DraftCalendar.tsx`,
`lib/crypto.ts`, the API routes) is embedded shallowly below: JSON values
become an inductive type, the LiveKit data-channel handlers become pure
state-transition functions, the crypto framing becomes byte-list
functions parameterised over the AES-GCM primitive (which is an external
Node library), and the HTTP routes become total functions from their
inputs (query params, cookies, environment) to a response value.

The backend scheduling engine is not part of the source tree; the
definitions for it are modelled from the specification and are marked as
such in their doc comments.
-/

set_option maxRecDepth 10000

/-- JSON values as produced by `JSON.parse`: null, booleans, numbers
(integers suffice for this development), strings, arrays and objects
(objects as ordered key/value lists; duplicate keys resolved last-wins,
as `JSON.parse` does). -/
inductive Json where
  | null : Json
  | bool : Bool → Json
  | num : Int → Json
  | str : String → Json
  | arr : List Json → Json
  | obj : List (String × Json) → Json

/-- Last-wins lookup of a key in a JSON object's field list, matching the
semantics of property access on the result of `JSON.parse` (a duplicated
key keeps its last value). Returns `none` for an absent key (JS
`undefined`). -/
def lookupField : List (String × Json) → String → Option Json
  | [], _ => none
  | (k, v) :: rest, key =>
    match lookupField rest key with
    | some v2 => some v2
    | none => if k == key then some v else none

/-- Property access `data.key` on an arbitrary parsed JSON value:
defined (≠ undefined) only on objects. -/
def jsGet : Json → String → Option Json
  | Json.obj fields, key => lookupField fields key
  | _, _ => none

/-- The guard of `onStatusMessage` in `page.tsx`:
`data?.type === "status" && typeof data.message === "string"`. -/
def isStatusShape (j : Json) : Bool :=
  (match jsGet j "type" with
   | some (Json.str s) => s == "status"
   | _ => false)
  &&
  (match jsGet j "message" with
   | some (Json.str _) => true
   | _ => false)

/-- The `message` string of a well-shaped status payload (the value
passed to `setStatusMsg` in `page.tsx`). -/
def statusMessageText (j : Json) : Option String :=
  match jsGet j "message" with
  | some (Json.str m) => some m
  | _ => none

/-- The guard of `onMessage` in `page.tsx`:
`data && Array.isArray(data.items)`. Only an object can have an `items`
property, and a non-null object is truthy. -/
def isScheduleShape (j : Json) : Bool :=
  match jsGet j "items" with
  | some (Json.arr _) => true
  | _ => false

/-- The check `data.status === "confirmed"` in `onMessage`. -/
def scheduleIsConfirmed (j : Json) : Bool :=
  match jsGet j "status" with
  | some (Json.str s) => s == "confirmed"
  | _ => false

/-- The React state of `AgentViewWithSchedule` that the data-channel
handlers mutate: the displayed draft schedule (the parsed payload),
the `confirming` flag and the calendar visibility flag. -/
structure ViewState where
  draft : Option Json
  confirming : Bool
  showCalendar : Bool

/-- The `onMessage` handler of `page.tsx` (draft_schedule topic) as a
state transition. Its input is the result of
`JSON.parse(new TextDecoder().decode(payload))`: `none` models the parse
throwing, in which case the `catch` block ignores the message. -/
def onMessage (st : ViewState) (parsed : Option Json) : ViewState :=
  match parsed with
  | none => st
  | some data =>
    if isScheduleShape data then
      let st1 : ViewState := { st with draft := some data }
      let st2 : ViewState :=
        if scheduleIsConfirmed data then { st1 with confirming := false } else st1
      if !st.showCalendar then { st2 with showCalendar := true } else st2
    else st

/-- State touched by `onStatusMessage` in `page.tsx`: the displayed
status text, the set of pending `setTimeout` timers (timer id paired
with absolute fire time in milliseconds), the `statusTimeout.current`
ref and a fresh-id counter of the timer host. -/
structure StatusState where
  statusMsg : Option String
  timers : List (Nat × Nat)
  current : Option Nat
  nextId : Nat

/-- Initial status-display state: no message, no pending timer,
`statusTimeout.current` null. -/
def initStatusState : StatusState :=
  { statusMsg := none, timers := [], current := none, nextId := 0 }

/-- Events the status display reacts to: an inbound data-channel message
(already decoded and JSON-parsed, `none` = parse threw) arriving at
wall-clock time `now`, or a pending timer firing. -/
inductive StatusEv where
  | msg (parsed : Option Json) (now : Nat)
  | fire (id : Nat)

/-- The `onStatusMessage` handler of `page.tsx` plus the browser timer
host, as one step function. On a well-shaped status payload the handler
sets the message, clears the timer named by `statusTimeout.current`
(`clearTimeout`) and registers a fresh 6000 ms timer whose callback
clears the message; any other payload leaves the state untouched. A
`fire` event runs a pending timer's callback (`setStatusMsg(null)`) and
removes it from the pending set. -/
def statusStep (st : StatusState) : StatusEv → StatusState
  | StatusEv.msg parsed now =>
    match parsed with
    | none => st
    | some data =>
      if isStatusShape data then
        let remaining := st.timers.filter (fun t => some t.1 != st.current)
        { statusMsg := statusMessageText data
          timers := remaining ++ [(st.nextId, now + 6000)]
          current := some st.nextId
          nextId := st.nextId + 1 }
      else st
  | StatusEv.fire id =>
    if (st.timers.map Prod.fst).contains id then
      { st with
        statusMsg := none
        timers := st.timers.filter (fun t => t.1 != id) }
    else st

/-- Run the status display from a state through a list of events. -/
def statusRun (st : StatusState) (evs : List StatusEv) : StatusState :=
  evs.foldl statusStep st

/-- The topic string the frontend subscribes to and publishes on for
schedule traffic: `useDataChannel("draft_schedule", onMessage)` and
`send(payload, { topic: "draft_schedule" })` in `page.tsx`. -/
def scheduleTopicName : String := "draft_schedule"

/-- The topic string the frontend subscribes to for status traffic:
`useDataChannel("agent_status", onStatusMessage)` in `page.tsx`. -/
def statusTopicName : String := "agent_status"

/-- UTF-8 encoding of a single Unicode code point, as `TextEncoder` /
`Buffer.from(·, "utf-8")` perform it, over `Nat` code points and bytes. -/
def utf8EncodeChar (c : Nat) : List Nat :=
  if c < 128 then [c]
  else if c < 2048 then [192 + c / 64, 128 + c % 64]
  else if c < 65536 then [224 + c / 4096, 128 + c / 64 % 64, 128 + c % 64]
  else [240 + c / 262144, 128 + c / 4096 % 64, 128 + c / 64 % 64, 128 + c % 64]

/-- UTF-8 encoding of a string to a byte list (`TextEncoder.encode`). -/
def utf8Encode (s : String) : List Nat :=
  (s.data.map (fun c => utf8EncodeChar c.toNat)).flatten

/-- UTF-8 decoding of a byte list back to code points
(`Buffer.toString("utf-8")` / `TextDecoder.decode` on well-formed input;
like those decoders it is total and never throws — its value on
malformed input is irrelevant here). -/
def utf8Decode : List Nat → List Nat
  | [] => []
  | b :: rest =>
    if b < 128 then b :: utf8Decode rest
    else if b < 224 then
      ((b - 192) * 64 + (rest.headD 0 - 128)) :: utf8Decode (rest.drop 1)
    else if b < 240 then
      ((b - 224) * 4096 + (rest.headD 0 - 128) * 64 +
        ((rest.drop 1).headD 0 - 128)) :: utf8Decode (rest.drop 2)
    else
      ((b - 240) * 262144 + (rest.headD 0 - 128) * 4096 +
        ((rest.drop 1).headD 0 - 128) * 64 +
        ((rest.drop 2).headD 0 - 128)) :: utf8Decode (rest.drop 3)
termination_by l => l.length
decreasing_by
  all_goals simp [List.length_drop]
  all_goals omega

/-- UTF-8 decoding of a byte list to a string. -/
def utf8DecodeStr (bs : List Nat) : String :=
  String.mk ((utf8Decode bs).map Char.ofNat)

/-- The base64 alphabet used by `Buffer.toString("base64")`. -/
def b64Alphabet : List Char :=
  "ABCDEFGHIJKLMNOPQRSTUVWXYZabcdefghijklmnopqrstuvwxyz0123456789+/".data

/-- The base64 digit for a 6-bit value. -/
def b64Char (n : Nat) : Char := b64Alphabet.getD n '='

/-- The 6-bit value of a base64 digit. -/
def b64Val (c : Char) : Nat :=
  (List.findIdx? (fun x => x == c) b64Alphabet).getD 0

/-- Standard base64 encoding with padding, 3 input bytes per 4 output
digits (`Buffer.toString("base64")`). -/
def encodeB64 : List Nat → List Char
  | [] => []
  | [a] => [b64Char (a / 4), b64Char (a % 4 * 16), '=', '=']
  | [a, b] =>
    [b64Char (a / 4), b64Char (a % 4 * 16 + b / 16), b64Char (b % 16 * 4), '=']
  | a :: b :: c :: rest =>
    b64Char (a / 4) :: b64Char (a % 4 * 16 + b / 16) ::
      b64Char (b % 16 * 4 + c / 64) :: b64Char (c % 64) :: encodeB64 rest

/-- Base64 decoding (`Buffer.from(·, "base64")`), 4 digits per 3 output
bytes, with `=` padding shortening the final group. -/
def decodeB64 : List Char → List Nat
  | c1 :: c2 :: c3 :: c4 :: rest =>
    if c3 = '=' then [b64Val c1 * 4 + b64Val c2 / 16]
    else if c4 = '=' then
      [b64Val c1 * 4 + b64Val c2 / 16, b64Val c2 % 16 * 16 + b64Val c3 / 4]
    else
      (b64Val c1 * 4 + b64Val c2 / 16) :: (b64Val c2 % 16 * 16 + b64Val c3 / 4) ::
        (b64Val c3 % 4 * 64 + b64Val c4) :: decodeB64 rest
  | _ => []

/-- Key derivation from `crypto.ts` (`getKey`): requires the
`COOKIE_SECRET` environment value (here an `Option String`, `none` =
unset) to be at least 32 characters, and returns the UTF-8 bytes of its
first 32 characters. The source guard is `!secret || secret.length < 32`;
an empty string is falsy in JS and also has length `0 < 32`, so the
condition is exactly "absent or shorter than 32". A thrown `Error`
becomes `Except.error`. -/
def getKey (cookieSecret : Option String) : Except String (List Nat) :=
  match cookieSecret with
  | none => Except.error "COOKIE_SECRET must be at least 32 characters"
  | some secret =>
    if secret.length < 32 then
      Except.error "COOKIE_SECRET must be at least 32 characters"
    else Except.ok (utf8Encode (String.mk (secret.data.take 32)))

/-- `encrypt` from `crypto.ts`. The AES-256-GCM cipher is the external
Node `crypto` library; it enters as the parameter `enc`, mapping
(key, iv, plaintext bytes) to (ciphertext bytes, auth tag). The random
IV (`randomBytes(IV_LENGTH)` with `IV_LENGTH = 12`) is supplied by the
caller. The result is `iv + tag + ciphertext`, base64-encoded, exactly
as the source concatenates the three buffers. -/
def encrypt (enc : List Nat → List Nat → List Nat → List Nat × List Nat)
    (key iv : List Nat) (plaintext : String) : String :=
  let res := enc key iv (utf8Encode plaintext)
  String.mk (encodeB64 (iv ++ res.2 ++ res.1))

/-- `decrypt` from `crypto.ts`: base64-decode, split off the 12-byte IV
(`subarray(0, IV_LENGTH)`) and the 16-byte tag
(`subarray(IV_LENGTH, IV_LENGTH + TAG_LENGTH)`), decipher the rest. The
external Gcm decipher enters as `dec`, mapping (key, iv, ciphertext,
tag) to the plaintext bytes, `none` when authentication fails (the
source's `decipher.final()` throw). -/
def decrypt (dec : List Nat → List Nat → List Nat → List Nat → Option (List Nat))
    (key : List Nat) (encoded : String) : Option String :=
  let data := decodeB64 encoded.data
  let iv := data.take 12
  let tag := (data.drop 12).take 16
  let ct := data.drop 28
  (dec key iv ct tag).map utf8DecodeStr

/-- `JSON.stringify` of a flat object whose values are plain strings
needing no escaping, as in `JSON.stringify(\x7b action: "confirm" \x7d)`. -/
def stringifyFlat (fields : List (String × String)) : String :=
  "\x7b" ++
    String.intercalate ","
      (fields.map (fun kv => "\"" ++ kv.1 ++ "\":\"" ++ kv.2 ++ "\"")) ++
  "\x7d"

/-- The byte payload built by `handleConfirm` in `page.tsx`:
`new TextEncoder().encode(JSON.stringify(\x7b action: "confirm" \x7d))`. -/
def confirmPayload : List Nat :=
  utf8Encode (stringifyFlat [("action", "confirm")])

/-- The message `handleConfirm` publishes: the confirm payload on the
`draft_schedule` topic (`send(payload, \x7b topic: "draft_schedule" \x7d)`). -/
def handleConfirmMsg : String × List Nat := (scheduleTopicName, confirmPayload)

/-- All messages the frontend ever sends backend-ward over the data
channels: the only `send` call in `page.tsx` is the one inside
`handleConfirm`. -/
def frontendScheduleSends : List (String × List Nat) := [handleConfirmMsg]

/-- JS truthiness of an optional environment/string value: `undefined`
and the empty string are falsy. -/
def falsyStr : Option String → Bool
  | none => true
  | some s => s == ""

/-- Responses of `GET /api/token` (`api/token/route.ts`): an error JSON
with an HTTP status, or a LiveKit token whose participant metadata
(`at.metadata`) and server url are recorded. -/
inductive TokenResponse where
  | error : Nat → String → TokenResponse
  | ok : String → String → TokenResponse
deriving DecidableEq

/-- `GET` from `api/token/route.ts` as a function of the three LiveKit
environment variables, the `google_tokens` cookie and the `decrypt`
outcome (`decryptFn`, `none` = `decrypt` threw). Mirrors the source
order: 500 when `!apiKey || !apiSecret || !livekitUrl`; 401 when the
cookie is absent; 401 when decryption throws; otherwise a token whose
metadata is exactly the decrypted string. -/
def tokenRoute (apiKey apiSecret livekitUrl cookie : Option String)
    (decryptFn : String → Option String) : TokenResponse :=
  if falsyStr apiKey || falsyStr apiSecret || falsyStr livekitUrl then
    TokenResponse.error 500 "Server misconfigured"
  else
    match cookie with
    | none => TokenResponse.error 401 "Not authenticated"
    | some c =>
      match decryptFn c with
      | none => TokenResponse.error 401 "Session expired"
      | some googleTokensJson =>
        TokenResponse.ok googleTokensJson (livekitUrl.getD "")

/-- Outcome of the external token-exchange `fetch` in the OAuth
callback: the HTTP call is out of scope, so it enters as a value — `ok`
with the encrypted cookie value the handler would store, or `failed`
(non-ok response). -/
inductive ExchangeOutcome where
  | ok : String → ExchangeOutcome
  | failed : ExchangeOutcome

/-- Observable result of the OAuth callback route: the `auth_error`
query parameter of the redirect (if any), the `google_tokens` cookie set
on the response (if any), whether the `oauth_state` cookie was cleared,
and whether the token-exchange request was performed at all. -/
structure CallbackResult where
  authError : Option String
  googleTokensCookie : Option String
  clearedOauthState : Bool
  exchanged : Bool
deriving DecidableEq

/-- A redirect carrying `?auth_error=tag` with no side effects, as every
error branch of the callback produces. -/
def callbackErr (tag : String) : CallbackResult :=
  { authError := some tag
    googleTokensCookie := none
    clearedOauthState := false
    exchanged := false }

/-- `GET` of the OAuth callback route (`src/unnamed/part_003`) as a
function of the query parameters (`code`, `state`, `error`), the
`oauth_state` cookie, the Google client environment variables and the
exchange outcome. Mirrors the source order: provider `error` param →
redirect with that error; missing `code`/`state` → `missing_params`;
missing or mismatching `oauth_state` cookie → `invalid_state`; falsy
client id/secret → `server_misconfigured`; failed exchange →
`token_exchange_failed`; success → set `google_tokens` to the encrypted
payload and clear `oauth_state`. -/
def oauthCallbackRoute (code state errParam storedState clientId clientSecret : Option String)
    (exchange : ExchangeOutcome) : CallbackResult :=
  match errParam with
  | some e => callbackErr e
  | none =>
    match code, state with
    | some _, some s =>
      match storedState with
      | none => callbackErr "invalid_state"
      | some stored =>
        if stored != s then callbackErr "invalid_state"
        else if falsyStr clientId || falsyStr clientSecret then
          callbackErr "server_misconfigured"
        else
          match exchange with
          | ExchangeOutcome.failed =>
            { callbackErr "token_exchange_failed" with exchanged := true }
          | ExchangeOutcome.ok encrypted =>
            { authError := none
              googleTokensCookie := some encrypted
              clearedOauthState := true
              exchanged := true }
    | _, _ => callbackErr "missing_params"

/-- The discriminant union `"existing" | "draft"` of the `type` field of
the `ScheduleItem` interface in `DraftCalendar.tsx`. -/
inductive ItemType where
  | existing : ItemType
  | draft : ItemType
deriving DecidableEq

/-- The `ScheduleItem` interface of `DraftCalendar.tsx`, field for
field: `id`, `type` (the existing/draft discriminant), `summary`,
`start`, `end`, `recurrence` (string or null), `habit_name` (string or
null), and the optional `description`, `calendar_name`,
`calendar_color`, `all_day`. -/
structure ScheduleItem where
  id : String
  type : ItemType
  summary : String
  start : String
  «end» : String
  recurrence : Option String
  habit_name : Option String
  description : Option String
  calendar_name : Option String
  calendar_color : Option String
  all_day : Option Bool
deriving DecidableEq

/-- Decode a required string field. -/
def fieldStr (fs : List (String × Json)) (key : String) : Option String :=
  match lookupField fs key with
  | some (Json.str s) => some s
  | _ => none

/-- Decode a nullable string field (`string | null` in the interface:
the key must be present, holding a string or null). -/
def fieldNullableStr (fs : List (String × Json)) (key : String) :
    Option (Option String) :=
  match lookupField fs key with
  | some (Json.str s) => some (some s)
  | some Json.null => some none
  | _ => none

/-- Decode an optional string field (`key?: string`: absent is allowed). -/
def fieldOptStr (fs : List (String × Json)) (key : String) :
    Option (Option String) :=
  match lookupField fs key with
  | some (Json.str s) => some (some s)
  | none => some none
  | _ => none

/-- Decode an optional boolean field (`key?: bool`). -/
def fieldOptBool (fs : List (String × Json)) (key : String) :
    Option (Option Bool) :=
  match lookupField fs key with
  | some (Json.bool b) => some (some b)
  | none => some none
  | _ => none

/-- Decode the `type` discriminant: exactly the strings `"existing"`
and `"draft"`. -/
def decodeItemType (fs : List (String × Json)) : Option ItemType :=
  match lookupField fs "type" with
  | some (Json.str s) =>
    if s = "existing" then some ItemType.existing
    else if s = "draft" then some ItemType.draft
    else none
  | _ => none

/-- Decode a JSON value into a `ScheduleItem` according to the
`ScheduleItem` interface of `DraftCalendar.tsx`. -/
def decodeScheduleItem (j : Json) : Option ScheduleItem :=
  match j with
  | Json.obj fs =>
    (fieldStr fs "id").bind fun id =>
    (decodeItemType fs).bind fun ty =>
    (fieldStr fs "summary").bind fun summary =>
    (fieldStr fs "start").bind fun start =>
    (fieldStr fs "end").bind fun stop =>
    (fieldNullableStr fs "recurrence").bind fun rrule =>
    (fieldNullableStr fs "habit_name").bind fun hn =>
    (fieldOptStr fs "description").bind fun desc =>
    (fieldOptStr fs "calendar_name").bind fun cn =>
    (fieldOptStr fs "calendar_color").bind fun cc =>
    (fieldOptBool fs "all_day").map fun ad =>
    ⟨id, ty, summary, start, stop, rrule, hn, desc, cn, cc, ad⟩
  | _ => none

/-- How `DraftCalendar.tsx` discriminates a rendered item as a draft
habit: `const isDraft = item.type === "draft"` (and the legend filter
`item.type === "existing"`) — the discriminant is read from the key
named `type`. -/
def itemIsDraft (j : Json) : Bool :=
  match jsGet j "type" with
  | some (Json.str s) => s == "draft"
  | _ => false

/-- Modelled from the spec: a half-open time interval, the shape shared
by `BusySlot` (§3) and placed occurrences; times in minutes. The
backend defining these (the Python agent) is not in the source tree. -/
structure BusySlot where
  start : Nat
  «end» : Nat
deriving DecidableEq

/-- Modelled from the spec: the half-open interval overlap test of §4.3,
`a.start < b.end && b.start < a.end`. -/
def overlapsB (a b : BusySlot) : Bool :=
  decide (a.start < b.«end») && decide (b.start < a.«end»)

/-- Modelled from the spec: the cadence enum of `Habit` (§3);
`three_per_week` renders the source's `3x_per_week`. -/
inductive Cadence where
  | daily : Cadence
  | weekdays : Cadence
  | weekly : Cadence
  | three_per_week : Cadence
  | monthly : Cadence

/-- Modelled from the spec: a `Habit` of the `HabitPlan` (§3):
name, cadence, duration in minutes, optional preferred time-of-day
(minutes after local midnight) and notes. -/
structure Habit where
  name : String
  cadence : Cadence
  duration_minutes : Nat
  preferred_time : Option Nat
  notes : String

/-- Modelled from the spec: the target month for §4.3 cadence
expansion: its number of days, the weekday of its first day (0 =
Monday), and the weekday and day-of-month (1-based) of the plan's
creation date, which anchor `weekly`/`3x_per_week`/`monthly`. -/
structure MonthCtx where
  numDays : Nat
  firstWeekday : Nat
  anchorWeekday : Nat
  anchorDayOfMonth : Nat

/-- Modelled from the spec (§4.3): expand a cadence into the 0-based
target day indices of the month: `daily` every day, `weekdays` Mon–Fri,
`weekly` the creation weekday, `3x_per_week` a fixed
anchor/anchor+2/anchor+4 weekday pattern, `monthly` the creation
day-of-month. -/
def cadenceDates (c : Cadence) (m : MonthCtx) : List Nat :=
  match c with
  | Cadence.daily => List.range m.numDays
  | Cadence.weekdays =>
    (List.range m.numDays).filter (fun d => (m.firstWeekday + d) % 7 < 5)
  | Cadence.weekly =>
    (List.range m.numDays).filter
      (fun d => (m.firstWeekday + d) % 7 == m.anchorWeekday % 7)
  | Cadence.three_per_week =>
    (List.range m.numDays).filter (fun d =>
      let w := (m.firstWeekday + d) % 7
      w == m.anchorWeekday % 7 || w == (m.anchorWeekday + 2) % 7 ||
        w == (m.anchorWeekday + 4) % 7)
  | Cadence.monthly =>
    if 1 ≤ m.anchorDayOfMonth && m.anchorDayOfMonth ≤ m.numDays then
      [m.anchorDayOfMonth - 1]
    else []

/-- Modelled from the spec: the fixed shift increment of §4.3 step 3,
30 minutes. -/
def shiftStep : Nat := 30

/-- Modelled from the spec: the shift ceiling of §4.3 step 3, 24 hours
of total shift. -/
def shiftCeiling : Nat := 1440

/-- Modelled from the spec: the preferred time used when a habit has
none; the spec leaves this open, 9:00 is chosen. -/
def defaultPreferredTime : Nat := 540

/-- Modelled from the spec (§4.3): the candidate start times tried for
one occurrence — the preferred time, then forward shifts in exact
30-minute steps up to the 24-hour ceiling, never crossing the day
boundary (starts at or past midnight of the next day are abandoned). -/
def candidateStarts (pref : Nat) : List Nat :=
  ((List.range (shiftCeiling / shiftStep + 1)).map
    (fun k => pref + shiftStep * k)).filter (fun s => s < 1440)

/-- Modelled from the spec: does a candidate interval overlap ANY busy
interval (§4.2: any overlap with any busy slot is a conflict)? -/
def conflictsAny (busy : List BusySlot) (c : BusySlot) : Bool :=
  busy.any (fun b => overlapsB c b)

/-- Modelled from the spec (§4.3 steps 1–4): place one occurrence on a
day — the first conflict-free candidate becomes the interval, `none`
(an unplaced occurrence, the `PlacementWarning` case) if every
candidate within the ceiling conflicts. -/
def placeOnDay (busy : List BusySlot) (day pref dur : Nat) : Option BusySlot :=
  ((candidateStarts pref).map
    (fun s => BusySlot.mk (day * 1440 + s) (day * 1440 + s + dur))).find?
    (fun c => !conflictsAny busy c)

/-- Modelled from the spec: one placement step of the engine — an
occurrence `(day, preferred, duration)` is placed against the busy
slots together with the occurrences already accepted (§8: accepted
occurrences must also not overlap each other), and appended to the
accepted list if a slot was found. -/
def placeStep (busy : List BusySlot) (acc : List BusySlot)
    (occ : Nat × Nat × Nat) : List BusySlot :=
  match placeOnDay (busy ++ acc) occ.1 occ.2.1 occ.2.2 with
  | some c => acc ++ [c]
  | none => acc

/-- Modelled from the spec: place all occurrences in order, collecting
the accepted intervals. -/
def placeAll (busy : List BusySlot) (occs : List (Nat × Nat × Nat)) :
    List BusySlot :=
  occs.foldl (placeStep busy) []

/-- Modelled from the spec: the occurrences a habit contributes to the
month: one per cadence-target date, at the preferred time, with the
habit's duration. -/
def habitOccurrences (m : MonthCtx) (h : Habit) : List (Nat × Nat × Nat) :=
  (cadenceDates h.cadence m).map
    (fun d => (d, h.preferred_time.getD defaultPreferredTime, h.duration_minutes))

/-- Modelled from the spec: the intervals of all draft occurrences the
SlotPlacementEngine accepts for a habit plan in a month against a busy
model. -/
def acceptedBusySlots (plan : List Habit) (busy : List BusySlot)
    (m : MonthCtx) : List BusySlot :=
  placeAll busy ((plan.map (habitOccurrences m)).flatten)

/-- Zero overlap of every member of `l` with every member of `busy`. -/
def noOverlapAll (busy : List BusySlot) (l : List BusySlot) : Bool :=
  l.all (fun a => busy.all (fun b => !overlapsB a b))

/-- Pairwise zero overlap within a list of intervals. -/
def pairwiseFree : List BusySlot → Bool
  | [] => true
  | a :: rest => rest.all (fun b => !overlapsB a b) && pairwiseFree rest

/-- Every reachable status-display state keeps at most one pending
expiry timer, and every pending timer is the one named by
`statusTimeout.current`. -/
def statusInv (st : StatusState) : Prop :=
  st.timers.length ≤ 1 ∧ ∀ t ∈ st.timers, some t.1 = st.current

theorem statusInv_init : statusInv initStatusState := by
  constructor
  · simp [initStatusState]
  · intro t ht; simp [initStatusState] at ht

theorem statusInv_step (st : StatusState) (ev : StatusEv)
    (h : statusInv st) : statusInv (statusStep st ev) := by
  obtain ⟨hlen, hcur⟩ := h
  cases ev with
  | msg parsed now =>
    cases parsed with
    | none => exact ⟨hlen, hcur⟩
    | some data =>
      by_cases hs : isStatusShape data = true
      · have hrem : st.timers.filter (fun t => some t.1 != st.current) = [] := by
          apply List.filter_eq_nil_iff.mpr
          intro t ht
          simp [hcur t ht]
        constructor
        · simp [statusStep, hs, hrem]
        · intro t ht
          simp [statusStep, hs, hrem] at ht
          simp [statusStep, hs, ht]
      · have hs' : isStatusShape data = false := by
          cases hb : isStatusShape data
          · rfl
          · exact absurd hb hs
        simp only [statusStep, hs']
        exact ⟨hlen, hcur⟩
  | fire id =>
    by_cases hc : (st.timers.map Prod.fst).contains id = true
    · unfold statusInv statusStep
      simp only [hc, if_true]
      constructor
      · exact le_trans (List.length_filter_le _ _) hlen
      · intro t ht
        exact hcur t (List.mem_of_mem_filter ht)
    · unfold statusInv statusStep
      simp only [hc, if_false]
      exact ⟨hlen, hcur⟩

theorem statusInv_run (st : StatusState) (evs : List StatusEv)
    (h : statusInv st) : statusInv (statusRun st evs) := by
  induction evs generalizing st with
  | nil => exact h
  | cons ev rest ih => exact ih (statusStep st ev) (statusInv_step st ev h)

/-- C2: when the user triggers schedule confirmation, the frontend
publishes on the schedule topic exactly the UTF-8 JSON encoding of the
confirm action object, and this is the only message the frontend ever
sends backend-ward on the data channels. -/
theorem confirm_publishes_exact_confirm_json :
    frontendScheduleSends =
      [(scheduleTopicName, utf8Encode "\x7b\"action\":\"confirm\"\x7d")] ∧
    confirmPayload =
      [123, 34, 97, 99, 116, 105, 111, 110, 34, 58, 34, 99, 111, 110, 102,
        105, 114, 109, 34, 125] := by
  constructor <;> rfl

/-- C3: an inbound payload that fails to parse as JSON (`none`), or
parses to a value not matching the receiving handler's expected shape,
leaves that handler's state unchanged: the status handler ignores
everything that is not a well-shaped status object (even a value shaped
like a schedule), and the schedule handler ignores everything without an
`items` array (even a value shaped like a status message); the handlers
are total, mirroring the source's catch-all. -/
theorem malformed_inbound_leaves_state_unchanged
    (vst : ViewState) (sst : StatusState) (parsed : Option Json) (now : Nat) :
    ((∀ j, parsed = some j → isStatusShape j = false) →
      statusStep sst (StatusEv.msg parsed now) = sst) ∧
    ((∀ j, parsed = some j → isScheduleShape j = false) →
      onMessage vst parsed = vst) := by
  constructor
  · intro h
    cases parsed with
    | none => rfl
    | some j => simp [statusStep, h j rfl]
  · intro h
    cases parsed with
    | none => rfl
    | some j => simp [onMessage, h j rfl]

/-- Witness for C3 at the cross-topic payloads: a schedule-shaped value
on the status topic leaves the status display unchanged, and a
status-shaped value on the schedule topic leaves the schedule view
unchanged. -/
theorem malformed_inbound_witness :
    statusStep initStatusState
        (StatusEv.msg (some (Json.obj [("items", Json.arr [])])) 0) =
      initStatusState ∧
    onMessage ⟨none, false, false⟩
        (some (Json.obj [("type", Json.str "status"),
          ("message", Json.str "x")])) = ⟨none, false, false⟩ :=
  ⟨(malformed_inbound_leaves_state_unchanged ⟨none, false, false⟩ initStatusState
      (some (Json.obj [("items", Json.arr [])])) 0).1
      (by intro j hj; cases hj; rfl),
    (malformed_inbound_leaves_state_unchanged ⟨none, false, false⟩ initStatusState
      (some (Json.obj [("type", Json.str "status"),
        ("message", Json.str "x")])) 0).2
      (by intro j hj; cases hj; rfl)⟩

/-- C4 counterexample: the two data-channel topics of the source are not
named `schedule` and `status`. -/
theorem topic_names_counterexample :
    ¬(scheduleTopicName = "schedule" ∧ statusTopicName = "status") := by
  intro h
  exact absurd h.1 (by decide)

/-- C4 amended: the SyncChannel consists of exactly two topics named
`draft_schedule` and `agent_status`; DraftSchedule snapshots and confirm
action requests travel on `draft_schedule` (the confirm send targets
that same topic), and progress text travels on `agent_status`. -/
theorem topic_names_amended :
    scheduleTopicName = "draft_schedule" ∧ statusTopicName = "agent_status" ∧
    handleConfirmMsg.1 = scheduleTopicName := ⟨rfl, rfl, rfl⟩

/-- C5: from the initial display state, any sequence of events leaves at
most one expiry timer pending, and a well-formed status message arriving
at time `now` displays its text and leaves exactly one pending timer,
expiring at `now + 6000` milliseconds (6 seconds). -/
theorem status_six_second_single_timer
    (evs : List StatusEv) (j : Json) (now : Nat)
    (hj : isStatusShape j = true) :
    (statusRun initStatusState evs).timers.length ≤ 1 ∧
    (statusStep (statusRun initStatusState evs) (StatusEv.msg (some j) now)).statusMsg
        = statusMessageText j ∧
    (statusStep (statusRun initStatusState evs) (StatusEv.msg (some j) now)).timers
        = [((statusRun initStatusState evs).nextId, now + 6000)] := by
  obtain ⟨hlen, hcur⟩ := statusInv_run initStatusState evs statusInv_init
  have hrem : (statusRun initStatusState evs).timers.filter
      (fun t => some t.1 != (statusRun initStatusState evs).current) = [] := by
    apply List.filter_eq_nil_iff.mpr
    intro t ht
    simp [hcur t ht]
  refine ⟨hlen, ?_, ?_⟩ <;> simp [statusStep, hj, hrem]

/-- Witness for C5 with no prior events and the status payload
`type:"status", message:"hi"` arriving at time 0. -/
theorem status_six_second_witness :
    (statusRun initStatusState []).timers.length ≤ 1 ∧
    (statusStep (statusRun initStatusState [])
        (StatusEv.msg (some (Json.obj [("type", Json.str "status"),
          ("message", Json.str "hi")])) 0)).statusMsg
      = statusMessageText (Json.obj [("type", Json.str "status"),
          ("message", Json.str "hi")]) ∧
    (statusStep (statusRun initStatusState [])
        (StatusEv.msg (some (Json.obj [("type", Json.str "status"),
          ("message", Json.str "hi")])) 0)).timers
      = [((statusRun initStatusState []).nextId, 0 + 6000)] :=
  status_six_second_single_timer []
    (Json.obj [("type", Json.str "status"), ("message", Json.str "hi")]) 0
    (by decide)

/-- C7: a valid DraftSchedule snapshot replaces the displayed schedule
wholesale — the resulting displayed draft is exactly the parsed payload,
independent of whatever draft was held before: two receivers with
different prior states end with the same displayed schedule. -/
theorem schedule_snapshot_replaces_wholesale
    (st1 st2 : ViewState) (j : Json) (h : isScheduleShape j = true) :
    (onMessage st1 (some j)).draft = some j ∧
    (onMessage st1 (some j)).draft = (onMessage st2 (some j)).draft := by
  have hdraft : ∀ st : ViewState, (onMessage st (some j)).draft = some j := by
    intro st
    simp only [onMessage, h, if_true]
    cases hc : scheduleIsConfirmed j <;> cases hs : st.showCalendar <;> simp
  exact ⟨hdraft st1, (hdraft st1).trans (hdraft st2).symm⟩

/-- Witness for C7: the same one-item snapshot received from two
different prior view states yields the same displayed schedule. -/
theorem schedule_snapshot_witness :
    (onMessage ⟨none, false, false⟩ (some (Json.obj [("items", Json.arr [])]))).draft
        = some (Json.obj [("items", Json.arr [])]) ∧
    (onMessage ⟨none, false, false⟩ (some (Json.obj [("items", Json.arr [])]))).draft
        = (onMessage ⟨some (Json.obj [("items", Json.arr [Json.null])]), true, true⟩
            (some (Json.obj [("items", Json.arr [])]))).draft :=
  schedule_snapshot_replaces_wholesale ⟨none, false, false⟩
    ⟨some (Json.obj [("items", Json.arr [Json.null])]), true, true⟩
    (Json.obj [("items", Json.arr [])]) (by decide)

/-- An item whose discriminant is carried under the key named `type`
decodes and is classified as a draft; the same data under a key named
`kind` is neither decoded nor classified as a draft. -/
theorem item_kind_field_counterexample :
    itemIsDraft (Json.obj [("kind", Json.str "draft")]) = false ∧
    itemIsDraft (Json.obj [("type", Json.str "draft")]) = true ∧
    decodeScheduleItem (Json.obj [("kind", Json.str "draft")]) = none := by
  refine ⟨rfl, rfl, rfl⟩

theorem decodeItemType_draft_iff (fs : List (String × Json)) (ty : ItemType)
    (h : decodeItemType fs = some ty) :
    (itemIsDraft (Json.obj fs) = true ↔ ty = ItemType.draft) := by
  unfold decodeItemType at h
  cases hl : lookupField fs "type" with
  | none => rw [hl] at h; exact absurd h (by simp)
  | some v =>
    rw [hl] at h
    cases v with
    | str s =>
      by_cases he : s = "existing"
      · simp [he] at h
        subst he
        simp [itemIsDraft, jsGet, hl, ← h]
      · by_cases hd : s = "draft"
        · simp [he, hd] at h
          subst hd
          simp [itemIsDraft, jsGet, hl, ← h]
        · simp [he, hd] at h
    | null => exact absurd h (by simp)
    | bool b => exact absurd h (by simp)
    | num n => exact absurd h (by simp)
    | arr xs => exact absurd h (by simp)
    | obj gs => exact absurd h (by simp)

/-- C6 amended: every JSON value that decodes as a `ScheduleItem`
(the `DraftCalendar.tsx` interface) discriminates existing from proposed
items through the field named `type` with value `existing` or `draft` —
the renderer's draft test agrees with the decoded discriminant — and
carries nullable fields named `recurrence` and `habit_name` (the
interface allows `habit_name` on any item). -/
theorem item_type_discriminant
    (j : Json) (item : ScheduleItem) (h : decodeScheduleItem j = some item) :
    (itemIsDraft j = true ↔ item.type = ItemType.draft) ∧
    (∃ fs, j = Json.obj fs ∧
      fieldNullableStr fs "recurrence" = some item.recurrence ∧
      fieldNullableStr fs "habit_name" = some item.habit_name) := by
  cases j with
  | obj fs =>
    unfold decodeScheduleItem at h
    simp only [Option.bind_eq_some, Option.map_eq_some'] at h
    obtain ⟨id, hid, ty, hty, summary, hsum, start, hstart, stop, hstop,
      rrule, hrr, hn, hhn, desc, hdesc, cn, hcn, cc, hcc, ad, had, hitem⟩ := h
    constructor
    · have := decodeItemType_draft_iff fs ty hty
      rw [← hitem] at *
      exact this
    · exact ⟨fs, rfl, by rw [← hitem]; exact hrr, by rw [← hitem]; exact hhn⟩
  | null => exact absurd h (by simp [decodeScheduleItem])
  | bool b => exact absurd h (by simp [decodeScheduleItem])
  | num n => exact absurd h (by simp [decodeScheduleItem])
  | str s => exact absurd h (by simp [decodeScheduleItem])
  | arr xs => exact absurd h (by simp [decodeScheduleItem])

/-- Witness for the C6 amended theorem at a fully concrete draft item. -/
theorem item_type_discriminant_witness :
    (itemIsDraft (Json.obj [("id", Json.str "run-2024-06-03"),
        ("type", Json.str "draft"), ("summary", Json.str "Morning run"),
        ("start", Json.str "2024-06-03T07:30:00"),
        ("end", Json.str "2024-06-03T08:00:00"),
        ("recurrence", Json.str "weekdays"), ("habit_name", Json.str "Morning run")]) = true
      ↔ (ScheduleItem.mk "run-2024-06-03" ItemType.draft "Morning run"
          "2024-06-03T07:30:00" "2024-06-03T08:00:00" (some "weekdays")
          (some "Morning run") none none none none).type = ItemType.draft) ∧
    (∃ fs, Json.obj [("id", Json.str "run-2024-06-03"),
        ("type", Json.str "draft"), ("summary", Json.str "Morning run"),
        ("start", Json.str "2024-06-03T07:30:00"),
        ("end", Json.str "2024-06-03T08:00:00"),
        ("recurrence", Json.str "weekdays"), ("habit_name", Json.str "Morning run")] = Json.obj fs ∧
      fieldNullableStr fs "recurrence" = some (some "weekdays") ∧
      fieldNullableStr fs "habit_name" = some (some "Morning run")) :=
  item_type_discriminant _ _ (by rfl)

/-- C9 counterexample: with `LIVEKIT_API_KEY` present but empty (so not
missing), a cookie present and decryption succeeding, the route returns
500 rather than a token — the source tests JS falsiness, not absence. -/
theorem token_route_counterexample :
    tokenRoute (some "") (some "secret") (some "wss://lk") (some "cookie")
        (fun s => some s) = TokenResponse.error 500 "Server misconfigured" ∧
    (some "" : Option String) ≠ none := by
  refine ⟨rfl, by simp⟩

/-- C9 amended: `GET /api/token` returns 500 when any LiveKit
environment variable is missing or empty, 401 when the `google_tokens`
cookie is absent or fails to decrypt, and otherwise a token whose
participant metadata is exactly the decrypted Google-token JSON string. -/
theorem token_route_characterisation
    (apiKey apiSecret livekitUrl cookie : Option String)
    (decryptFn : String → Option String) :
    ((falsyStr apiKey || falsyStr apiSecret || falsyStr livekitUrl) = true →
      tokenRoute apiKey apiSecret livekitUrl cookie decryptFn =
        TokenResponse.error 500 "Server misconfigured") ∧
    ((falsyStr apiKey || falsyStr apiSecret || falsyStr livekitUrl) = false →
      cookie = none →
      tokenRoute apiKey apiSecret livekitUrl cookie decryptFn =
        TokenResponse.error 401 "Not authenticated") ∧
    (∀ c, (falsyStr apiKey || falsyStr apiSecret || falsyStr livekitUrl) = false →
      cookie = some c → decryptFn c = none →
      tokenRoute apiKey apiSecret livekitUrl cookie decryptFn =
        TokenResponse.error 401 "Session expired") ∧
    (∀ c m, (falsyStr apiKey || falsyStr apiSecret || falsyStr livekitUrl) = false →
      cookie = some c → decryptFn c = some m →
      tokenRoute apiKey apiSecret livekitUrl cookie decryptFn =
        TokenResponse.ok m (livekitUrl.getD "")) := by
  refine ⟨?_, ?_, ?_, ?_⟩
  · intro hf
    simp [tokenRoute, hf]
  · intro hf hc
    simp [tokenRoute, hf, hc]
  · intro c hf hc hd
    simp [tokenRoute, hf, hc, hd]
  · intro c m hf hc hd
    simp [tokenRoute, hf, hc, hd]

/-- Witness for C9 amended: a fully configured environment, a present
cookie and a successful decryption produce a token carrying exactly the
decrypted string as metadata. -/
theorem token_route_witness :
    tokenRoute (some "key") (some "secret") (some "wss://lk") (some "cookie")
        (fun _ => some "tokens-json") = TokenResponse.ok "tokens-json" "wss://lk" :=
  (token_route_characterisation (some "key") (some "secret") (some "wss://lk")
      (some "cookie") (fun _ => some "tokens-json")).2.2.2 "cookie" "tokens-json"
    rfl rfl rfl

/-- C10: whenever the `code` or `state` query parameter is missing, or
the `oauth_state` cookie is missing or differs from `state`, the OAuth
callback performs no token-exchange request, sets no `google_tokens`
cookie, responds with a redirect carrying an `auth_error` parameter, and
does not clear the `oauth_state` cookie. -/
theorem oauth_callback_rejects_bad_state
    (code state errParam storedState clientId clientSecret : Option String)
    (exchange : ExchangeOutcome)
    (h : code = none ∨ state = none ∨ storedState = none ∨ storedState ≠ state) :
    (oauthCallbackRoute code state errParam storedState clientId clientSecret
        exchange).exchanged = false ∧
    (oauthCallbackRoute code state errParam storedState clientId clientSecret
        exchange).googleTokensCookie = none ∧
    (oauthCallbackRoute code state errParam storedState clientId clientSecret
        exchange).authError.isSome = true ∧
    (oauthCallbackRoute code state errParam storedState clientId clientSecret
        exchange).clearedOauthState = false := by
  cases errParam with
  | some e => refine ⟨rfl, rfl, rfl, rfl⟩
  | none =>
    cases code with
    | none => refine ⟨rfl, rfl, rfl, rfl⟩
    | some c =>
      cases state with
      | none => refine ⟨rfl, rfl, rfl, rfl⟩
      | some s =>
        cases storedState with
        | none => refine ⟨rfl, rfl, rfl, rfl⟩
        | some stored =>
          have hne : stored ≠ s := by
            rcases h with h | h | h | h
            · exact absurd h (by simp)
            · exact absurd h (by simp)
            · exact absurd h (by simp)
            · intro hss; exact h (by rw [hss])
          have hbne : (stored != s) = true := bne_iff_ne.mpr hne
          simp only [oauthCallbackRoute, hbne, if_true]
          refine ⟨rfl, rfl, rfl, rfl⟩

/-- Witness for C10 at a request whose `oauth_state` cookie does not
match the `state` parameter. -/
theorem oauth_callback_witness :
    (oauthCallbackRoute (some "authcode") (some "projected") none
        (some "stored") (some "cid") (some "csec")
        (ExchangeOutcome.ok "encrypted")).exchanged = false ∧
    (oauthCallbackRoute (some "authcode") (some "projected") none
        (some "stored") (some "cid") (some "csec")
        (ExchangeOutcome.ok "encrypted")).googleTokensCookie = none ∧
    (oauthCallbackRoute (some "authcode") (some "projected") none
        (some "stored") (some "cid") (some "csec")
        (ExchangeOutcome.ok "encrypted")).authError.isSome = true ∧
    (oauthCallbackRoute (some "authcode") (some "projected") none
        (some "stored") (some "cid") (some "csec")
        (ExchangeOutcome.ok "encrypted")).clearedOauthState = false :=
  oauth_callback_rejects_bad_state (some "authcode") (some "projected") none
    (some "stored") (some "cid") (some "csec") (ExchangeOutcome.ok "encrypted")
    (Or.inr (Or.inr (Or.inr (by simp))))

theorem char_toNat_lt (c : Char) : c.toNat < 1114112 := by
  rcases c.valid with h | h
  · have hv : c.val.toNat < 55296 := h
    simp only [Char.toNat]
    omega
  · exact h.2

theorem utf8Decode_encodeChar (n : Nat) (hn : n < 1114112) (rest : List Nat) :
    utf8Decode (utf8EncodeChar n ++ rest) = n :: utf8Decode rest := by
  unfold utf8EncodeChar
  by_cases h1 : n < 128
  · simp only [h1, if_true, List.cons_append, List.nil_append]
    rw [utf8Decode.eq_def]
    simp only [h1, if_true]
  · by_cases h2 : n < 2048
    · have hb1 : ¬(192 + n / 64 < 128) := by omega
      have hb2 : 192 + n / 64 < 224 := by omega
      simp only [h1, h2, if_false, if_true, List.cons_append, List.nil_append]
      rw [utf8Decode.eq_def]
      simp only [hb1, hb2, if_false, if_true, List.headD_cons, List.drop_one,
        List.tail_cons]
      congr 1
      omega
    · by_cases h3 : n < 65536
      · have hb1 : ¬(224 + n / 4096 < 128) := by omega
        have hb2 : ¬(224 + n / 4096 < 224) := by omega
        have hb3 : 224 + n / 4096 < 240 := by omega
        simp only [h1, h2, h3, if_false, if_true, List.cons_append, List.nil_append]
        rw [utf8Decode.eq_def]
        simp only [hb1, hb2, hb3, if_false, if_true, List.headD_cons]
        have hd1 : List.drop 1 ((128 + n / 64 % 64) :: (128 + n % 64) :: rest)
            = (128 + n % 64) :: rest := rfl
        have hd2 : List.drop 2 ((128 + n / 64 % 64) :: (128 + n % 64) :: rest) = rest := rfl
        simp only [hd1, hd2, List.headD_cons]
        congr 1
        omega
      · have hb1 : ¬(240 + n / 262144 < 128) := by omega
        have hb2 : ¬(240 + n / 262144 < 224) := by omega
        have hb3 : ¬(240 + n / 262144 < 240) := by omega
        simp only [h1, h2, h3, if_false, List.cons_append, List.nil_append]
        rw [utf8Decode.eq_def]
        simp only [hb1, hb2, hb3, if_false, List.headD_cons]
        have hd1 : List.drop 1 ((128 + n / 4096 % 64) :: (128 + n / 64 % 64) :: (128 + n % 64) :: rest)
            = (128 + n / 64 % 64) :: (128 + n % 64) :: rest := rfl
        have hd2 : List.drop 2 ((128 + n / 4096 % 64) :: (128 + n / 64 % 64) :: (128 + n % 64) :: rest)
            = (128 + n % 64) :: rest := rfl
        have hd3 : List.drop 3 ((128 + n / 4096 % 64) :: (128 + n / 64 % 64) :: (128 + n % 64) :: rest)
            = rest := rfl
        simp only [hd1, hd2, hd3, List.headD_cons]
        congr 1
        omega

theorem utf8Decode_flatten (l : List Char) :
    utf8Decode ((l.map (fun c => utf8EncodeChar c.toNat)).flatten) =
      l.map Char.toNat := by
  induction l with
  | nil => rw [utf8Decode.eq_def]; rfl
  | cons c rest ih =>
    simp only [List.map_cons, List.flatten_cons]
    rw [utf8Decode_encodeChar c.toNat (char_toNat_lt c), ih]

theorem utf8DecodeStr_utf8Encode (s : String) : utf8DecodeStr (utf8Encode s) = s := by
  unfold utf8DecodeStr utf8Encode
  rw [utf8Decode_flatten, List.map_map]
  have hid : s.data.map (Char.ofNat ∘ Char.toNat) = s.data.map id := by
    apply List.map_congr_left
    intro c _
    exact Char.ofNat_toNat c
  rw [hid, List.map_id]

theorem b64Val_b64Char : ∀ n, n < 64 → b64Val (b64Char n) = n := by decide

theorem b64Char_ne_pad : ∀ n, n < 64 → b64Char n ≠ '=' := by decide

theorem decodeB64_encodeB64 :
    ∀ (bs : List Nat), (∀ x ∈ bs, x < 256) → decodeB64 (encodeB64 bs) = bs
  | [], _ => rfl
  | [a], h => by
    have ha : a < 256 := h a (by simp)
    have h1 : a / 4 < 64 := by omega
    have h2 : a % 4 * 16 < 64 := by omega
    show decodeB64 [b64Char (a / 4), b64Char (a % 4 * 16), '=', '='] = [a]
    rw [decodeB64]
    rw [if_pos rfl]
    rw [b64Val_b64Char _ h1, b64Val_b64Char _ h2]
    congr 1
    omega
  | [a, b], h => by
    have ha : a < 256 := h a (by simp)
    have hb : b < 256 := h b (by simp)
    have h1 : a / 4 < 64 := by omega
    have h2 : a % 4 * 16 + b / 16 < 64 := by omega
    have h3 : b % 16 * 4 < 64 := by omega
    show decodeB64 [b64Char (a / 4), b64Char (a % 4 * 16 + b / 16),
        b64Char (b % 16 * 4), '='] = [a, b]
    rw [decodeB64]
    rw [if_neg (b64Char_ne_pad _ h3), if_pos rfl]
    rw [b64Val_b64Char _ h1, b64Val_b64Char _ h2, b64Val_b64Char _ h3]
    congr 1
    · omega
    · congr 1
      omega
  | a :: b :: c :: rest, h => by
    have ha : a < 256 := h a (by simp)
    have hb : b < 256 := h b (by simp)
    have hc : c < 256 := h c (by simp)
    have h1 : a / 4 < 64 := by omega
    have h2 : a % 4 * 16 + b / 16 < 64 := by omega
    have h3 : b % 16 * 4 + c / 64 < 64 := by omega
    have h4 : c % 64 < 64 := by omega
    have ih := decodeB64_encodeB64 rest (fun x hx => h x (by simp [hx]))
    show decodeB64 (b64Char (a / 4) :: b64Char (a % 4 * 16 + b / 16) ::
        b64Char (b % 16 * 4 + c / 64) :: b64Char (c % 64) :: encodeB64 rest) =
      a :: b :: c :: rest
    rw [decodeB64]
    rw [if_neg (b64Char_ne_pad _ h3), if_neg (b64Char_ne_pad _ h4)]
    rw [b64Val_b64Char _ h1, b64Val_b64Char _ h2, b64Val_b64Char _ h3,
      b64Val_b64Char _ h4, ih]
    congr 1
    · omega
    · congr 1
      · omega
      · congr 1
        omega

/-- C8: for every plaintext and every AES-GCM primitive satisfying the
GCM roundtrip law (decipher inverts cipher under matching key/iv/tag),
`decrypt (encrypt s) = s`; `encrypt` always produces the base64 encoding
of the 12-byte IV, then the 16-byte auth tag, then the ciphertext; and
`getKey` fails precisely when `COOKIE_SECRET` is absent or shorter than
32 characters. -/
theorem crypto_roundtrip_and_getKey
    (enc : List Nat → List Nat → List Nat → List Nat × List Nat)
    (dec : List Nat → List Nat → List Nat → List Nat → Option (List Nat))
    (key iv : List Nat) (s : String)
    (hgcm : ∀ k i p, dec k i (enc k i p).1 (enc k i p).2 = some p)
    (hiv : iv.length = 12)
    (htag : (enc key iv (utf8Encode s)).2.length = 16)
    (hivb : ∀ x ∈ iv, x < 256)
    (htagb : ∀ x ∈ (enc key iv (utf8Encode s)).2, x < 256)
    (hctb : ∀ x ∈ (enc key iv (utf8Encode s)).1, x < 256) :
    decrypt dec key (encrypt enc key iv s) = some s ∧
    decodeB64 (encrypt enc key iv s).data =
      iv ++ (enc key iv (utf8Encode s)).2 ++ (enc key iv (utf8Encode s)).1 ∧
    (∀ cs, (∃ e, getKey cs = Except.error e) ↔
      (cs = none ∨ ∃ t, cs = some t ∧ t.length < 32)) := by
  set tag := (enc key iv (utf8Encode s)).2 with htagdef
  set ct := (enc key iv (utf8Encode s)).1 with hctdef
  have hall : ∀ x ∈ iv ++ tag ++ ct, x < 256 := by
    intro x hx
    rcases List.mem_append.mp hx with hx | hx
    · rcases List.mem_append.mp hx with hx | hx
      · exact hivb x hx
      · exact htagb x hx
    · exact hctb x hx
  have hlayout : decodeB64 (encrypt enc key iv s).data = iv ++ tag ++ ct := by
    show decodeB64 (encodeB64 (iv ++ tag ++ ct)) = iv ++ tag ++ ct
    exact decodeB64_encodeB64 _ hall
  refine ⟨?_, hlayout, ?_⟩
  · show (dec key ((decodeB64 (encrypt enc key iv s).data).take 12)
        ((decodeB64 (encrypt enc key iv s).data).drop 28)
        (((decodeB64 (encrypt enc key iv s).data).drop 12).take 16)).map
          utf8DecodeStr = some s
    rw [hlayout]
    have e1 : (iv ++ tag ++ ct).take 12 = iv := by
      rw [List.append_assoc, ← hiv]
      exact List.take_left iv (tag ++ ct)
    have e2 : ((iv ++ tag ++ ct).drop 12).take 16 = tag := by
      rw [List.append_assoc, ← hiv, List.drop_left, ← htag]
      exact List.take_left tag ct
    have e3 : (iv ++ tag ++ ct).drop 28 = ct := by
      have hlen : (iv ++ tag).length = 28 := by
        rw [List.length_append, hiv, htag]
      rw [← hlen]
      exact List.drop_left (iv ++ tag) ct
    rw [e1, e2, e3, hgcm key iv (utf8Encode s)]
    rw [Option.map_some']
    rw [utf8DecodeStr_utf8Encode]
  · intro cs
    cases cs with
    | none => simp [getKey]
    | some t =>
      by_cases hlt : t.length < 32
      · simp [getKey, hlt]
      · simp [getKey, hlt]

/-- Witness for C8 with a concrete (identity-ciphertext, constant-tag)
primitive satisfying the GCM law, a zero IV and the plaintext "ok". -/
theorem crypto_roundtrip_witness :
    decrypt (fun _ _ c t => if t = List.replicate 16 0 then some c else none)
        (utf8Encode "0123456789abcdef0123456789abcdef")
        (encrypt (fun _ _ p => (p, List.replicate 16 0))
          (utf8Encode "0123456789abcdef0123456789abcdef")
          (List.replicate 12 0) "ok") = some "ok" :=
  (crypto_roundtrip_and_getKey (fun _ _ p => (p, List.replicate 16 0))
    (fun _ _ c t => if t = List.replicate 16 0 then some c else none)
    (utf8Encode "0123456789abcdef0123456789abcdef") (List.replicate 12 0) "ok"
    (fun _ _ p => if_pos rfl) rfl rfl (by decide) (by decide) (by decide)).1

theorem overlapsB_comm (a b : BusySlot) : overlapsB a b = overlapsB b a := by
  simp [overlapsB, Bool.and_comm]

theorem placeOnDay_no_conflict (busy : List BusySlot) (day pref dur : Nat)
    (c : BusySlot) (h : placeOnDay busy day pref dur = some c) :
    conflictsAny busy c = false := by
  have hp := List.find?_some h
  cases hb : conflictsAny busy c
  · rfl
  · rw [hb] at hp
    exact absurd hp (by simp)

theorem conflictsAny_eq_false_iff (busy : List BusySlot) (c : BusySlot) :
    conflictsAny busy c = false ↔ ∀ b ∈ busy, overlapsB c b = false := by
  simp [conflictsAny, List.any_eq_false]

theorem conflictsAny_append (l1 l2 : List BusySlot) (c : BusySlot) :
    conflictsAny (l1 ++ l2) c = (conflictsAny l1 c || conflictsAny l2 c) := by
  simp [conflictsAny, List.any_append]

theorem noOverlapAll_eq_true_iff (busy l : List BusySlot) :
    noOverlapAll busy l = true ↔ ∀ a ∈ l, ∀ b ∈ busy, overlapsB a b = false := by
  simp [noOverlapAll, List.all_eq_true, Bool.not_eq_true']

theorem noOverlapAll_append_single (busy l : List BusySlot) (c : BusySlot)
    (h : noOverlapAll busy l = true) (hc : conflictsAny busy c = false) :
    noOverlapAll busy (l ++ [c]) = true := by
  rw [noOverlapAll_eq_true_iff] at h ⊢
  intro a ha b hb
  rcases List.mem_append.mp ha with ha | ha
  · exact h a ha b hb
  · have : a = c := by simpa using ha
    subst this
    exact (conflictsAny_eq_false_iff busy a).mp hc b hb

theorem pairwiseFree_append_single (l : List BusySlot) (c : BusySlot)
    (hl : pairwiseFree l = true) (hc : ∀ a ∈ l, overlapsB a c = false) :
    pairwiseFree (l ++ [c]) = true := by
  induction l with
  | nil => rfl
  | cons a rest ih =>
    simp only [pairwiseFree, Bool.and_eq_true, List.all_eq_true] at hl
    simp only [List.cons_append, pairwiseFree, Bool.and_eq_true, List.all_eq_true]
    constructor
    · intro b hb
      rcases List.mem_append.mp hb with hb | hb
      · exact hl.1 b hb
      · have : b = c := by simpa using hb
        subst this
        rw [Bool.not_eq_true', hc a (by simp)]
    · exact ih hl.2 (fun x hx => hc x (by simp [hx]))

theorem placeAll_foldl_inv (busy : List BusySlot) (occs : List (Nat × Nat × Nat)) :
    ∀ acc, noOverlapAll busy acc = true → pairwiseFree acc = true →
      noOverlapAll busy (occs.foldl (placeStep busy) acc) = true ∧
      pairwiseFree (occs.foldl (placeStep busy) acc) = true := by
  induction occs with
  | nil => intro acc h1 h2; exact ⟨h1, h2⟩
  | cons occ rest ih =>
    intro acc h1 h2
    simp only [List.foldl_cons]
    cases hp : placeOnDay (busy ++ acc) occ.1 occ.2.1 occ.2.2 with
    | none =>
      have hstep : placeStep busy acc occ = acc := by simp [placeStep, hp]
      rw [hstep]
      exact ih acc h1 h2
    | some c =>
      have hstep : placeStep busy acc occ = acc ++ [c] := by simp [placeStep, hp]
      rw [hstep]
      have hnc := placeOnDay_no_conflict _ _ _ _ _ hp
      rw [conflictsAny_append] at hnc
      obtain ⟨hnb, hna⟩ := Bool.or_eq_false_iff.mp hnc
      apply ih
      · exact noOverlapAll_append_single busy acc c h1 hnb
      · apply pairwiseFree_append_single acc c h2
        intro a ha
        rw [overlapsB_comm]
        exact (conflictsAny_eq_false_iff acc c).mp hna a ha

/-- C1: for every habit plan, busy-slot set and month, every accepted
draft occurrence's interval has zero overlap (under the half-open
overlap test) with every busy slot and with every other accepted
occurrence. -/
theorem accepted_draft_occurrences_conflict_free
    (plan : List Habit) (busy : List BusySlot) (m : MonthCtx) :
    noOverlapAll busy (acceptedBusySlots plan busy m) = true ∧
    pairwiseFree (acceptedBusySlots plan busy m) = true := by
  unfold acceptedBusySlots placeAll
  exact placeAll_foldl_inv busy _ [] rfl rfl

/-- Sanity check of the modelled engine against the spec's scenario: a
30-minute habit preferred at 7:00 (minute 420) on a day whose 7:00–7:30
is busy is placed at 7:30–8:00 after one 30-minute shift, and on a free
day at 7:00–7:30. -/
theorem placement_scenario_one_shift :
    placeOnDay [BusySlot.mk 420 450] 0 420 30 = some (BusySlot.mk 450 480) ∧
    placeOnDay [] 0 420 30 = some (BusySlot.mk 420 450) := by
  refine ⟨by decide, by decide⟩
